import Mathlib

/-!
Shallow embedding of the JSON classification and storage-routing engine of
`app/utils/json_analyzer.py` (class `JSONAnalyzer`), together with the
upload pipeline of `app/routers/json_routes.py`, and proofs settling the
specification claims about it.

Conventions of the embedding:
* Python `dict`/`list` JSON values become the inductive `Json`; numbers are
  modelled as `Int` (no claim depends on numeric fine structure).
* Raw file bytes are `List Nat` (each entry one byte).
* The result of Python `json.load` on the temp file is carried as an
  `Except String Json` field (`.error msg` models a `json.JSONDecodeError`
  whose `str` is `msg`); the Python parser itself is an external library.
* `hashlib.md5` is embedded as a full executable MD5 (RFC 1321) over the
  byte list; `_get_file_hash` reads the file in 4096-byte chunks, which
  hashes exactly the whole byte stream.
* The filesystem (bucket directories, schema directory, temp files) and the
  external collaborators (Cloudinary, SQLite, MongoDB, `datetime.now`,
  `os.getenv("STORAGE_MODE")`) are modelled by an explicit `StorageState`
  and an environment record `Env`; Python exceptions raised and caught by
  the `try/except` of `store_json_file` is modelled by the corresponding early
  returns carrying the partially mutated state.
-/

/-- A parsed JSON value (the result of Python `json.load`). -/
inductive Json where
  | null : Json
  | bool : Bool → Json
  | num : Int → Json
  | str : String → Json
  | arr : List Json → Json
  | obj : List (String × Json) → Json
deriving Repr

/-- Python `isinstance(obj, (dict, list))`. -/
def Json.isContainer : Json → Bool
  | .arr _ => true
  | .obj _ => true
  | _ => false

/-- Python `isinstance(obj, dict)`. -/
def Json.isObj : Json → Bool
  | .obj _ => true
  | _ => false

/-- Python `list(data.keys())` for a dict (and `[]` on non-dicts). -/
def Json.keysOf : Json → List String
  | .obj fs => fs.map Prod.fst
  | _ => []

mutual
/-- `JSONAnalyzer._calculate_depth(obj, current_depth)`. -/
def calculateDepth : Json → Nat → Nat
  | .null, d => d
  | .bool _, d => d
  | .num _, d => d
  | .str _, d => d
  | .arr xs, d => depthItems xs d d
  | .obj fs, d => depthValues fs d d

/-- The `for item in obj` loop of `_calculate_depth` over a list, with the
running `max_depth` accumulator `m`. -/
def depthItems : List Json → Nat → Nat → Nat
  | [], _, m => m
  | x :: rest, d, m =>
      depthItems rest d (if x.isContainer then max m (calculateDepth x (d + 1)) else m)

/-- The `for value in obj.values()` loop of `_calculate_depth` over a dict,
with the running `max_depth` accumulator `m`. -/
def depthValues : List (String × Json) → Nat → Nat → Nat
  | [], _, m => m
  | (_, v) :: rest, d, m =>
      depthValues rest d (if v.isContainer then max m (calculateDepth v (d + 1)) else m)
end

/-- The analysis dictionaries returned by `JSONAnalyzer.analyze_json_file`
and its helpers; Python builds dicts with per-path key sets, modelled here
as optional fields defaulting to `none` (key absent). -/
structure AnalysisResult where
  recommendation : String
  reason : String
  nestingLevel : Option Nat := none
  estimatedRows : Option Nat := none
  columns : Option (List String) := none
  keys : Option (List String) := none
deriving DecidableEq, Repr

/-- Python `set(a) == set(b)` on key lists. -/
def sameKeySet (a b : List String) : Bool :=
  a.all (fun k => b.contains k) && b.all (fun k => a.contains k)

/-- `JSONAnalyzer._is_sql_optimized(sample, keys)` (the `sample` argument is
unused by the source body; `keys` is the key set of the first sample
element). -/
def isSqlOptimized (keys : List String) : Bool :=
  if keys.length > 50 then false
  else
    let hasId := keys.any fun k => k.toLower = "id" || k.toLower = "_id"
    let hasForeignKeys := keys.any fun k => k.endsWith "_id"
    hasId || hasForeignKeys || decide (keys.length ≤ 20)

/-- `JSONAnalyzer._analyze_object(data, file_path)` (the path argument is
unused by the source body). -/
def analyzeObject (fs : List (String × Json)) : AnalysisResult :=
  let maxDepth := calculateDepth (Json.obj fs) 0
  if 1 ≤ maxDepth then
    { recommendation := "nosql",
      reason := "Nested data (depth: " ++ toString maxDepth ++ ")",
      nestingLevel := some maxDepth }
  else
    { recommendation := "sql", reason := "Flat structure",
      keys := some (fs.map Prod.fst) }

/-- `JSONAnalyzer._analyze_array(data, file_path)`.  `set(sample[0].keys())`
is modelled as the duplicate-free key list of the first element. -/
def analyzeArray (data : List Json) : AnalysisResult :=
  match data with
  | [] => { recommendation := "nosql", reason := "Empty array" }
  | first :: _ =>
    let sample := data.take (min 10 data.length)
    if !(sample.all Json.isObj) then
      { recommendation := "nosql", reason := "Array contains non-object items" }
    else
      let firstKeys := (Json.keysOf first).eraseDups
      let consistentStructure := sample.all fun item => sameKeySet (Json.keysOf item) firstKeys
      let maxDepth := calculateDepth first 0
      if 1 ≤ maxDepth then
        { recommendation := "nosql",
          reason := "Nested data structure (depth: " ++ toString maxDepth ++ ")",
          nestingLevel := some maxDepth }
      else if consistentStructure && isSqlOptimized firstKeys then
        { recommendation := "sql", reason := "Uniform flat structured data",
          estimatedRows := some data.length, columns := some firstKeys }
      else
        { recommendation := "nosql", reason := "Variable structure" }

/-- `JSONAnalyzer.analyze_json_file(file_path)`: `fileSize` is
`os.path.getsize(file_path)` and `parsed` the outcome of `json.load` on the
file (`.error e` when a `json.JSONDecodeError` with text `e` is raised). -/
def analyzeJsonFile (fileSize : Nat) (parsed : Except String Json) : AnalysisResult :=
  if fileSize > 10 * 1024 * 1024 then
    { recommendation := "nosql", reason := "File too large for SQL optimization" }
  else
    match parsed with
    | .error e => { recommendation := "nosql", reason := "Invalid JSON: " ++ e }
    | .ok (.arr xs) => analyzeArray xs
    | .ok (.obj fs) => analyzeObject fs
    | .ok _ => { recommendation := "nosql", reason := "Simple scalar data type" }

/-! ### MD5 (RFC 1321), the semantics of `hashlib.md5` used by
`JSONAnalyzer._get_file_hash`. -/

/-- Per-round left-rotation amounts of MD5. -/
def md5s : List Nat :=
  [7, 12, 17, 22, 7, 12, 17, 22, 7, 12, 17, 22, 7, 12, 17, 22,
   5, 9, 14, 20, 5, 9, 14, 20, 5, 9, 14, 20, 5, 9, 14, 20,
   4, 11, 16, 23, 4, 11, 16, 23, 4, 11, 16, 23, 4, 11, 16, 23,
   6, 10, 15, 21, 6, 10, 15, 21, 6, 10, 15, 21, 6, 10, 15, 21]

/-- Per-round additive constants of MD5 (`floor(abs(sin(i + 1)) * 2^32)`). -/
def md5K : List Nat :=
  [0xd76aa478, 0xe8c7b756, 0x242070db, 0xc1bdceee,
   0xf57c0faf, 0x4787c62a, 0xa8304613, 0xfd469501,
   0x698098d8, 0x8b44f7af, 0xffff5bb1, 0x895cd7be,
   0x6b901122, 0xfd987193, 0xa679438e, 0x49b40821,
   0xf61e2562, 0xc040b340, 0x265e5a51, 0xe9b6c7aa,
   0xd62f105d, 0x02441453, 0xd8a1e681, 0xe7d3fbc8,
   0x21e1cde6, 0xc33707d6, 0xf4d50d87, 0x455a14ed,
   0xa9e3e905, 0xfcefa3f8, 0x676f02d9, 0x8d2a4c8a,
   0xfffa3942, 0x8771f681, 0x6d9d6122, 0xfde5380c,
   0xa4beea44, 0x4bdecfa9, 0xf6bb4b60, 0xbebfbc70,
   0x289b7ec6, 0xeaa127fa, 0xd4ef3085, 0x04881d05,
   0xd9d4d039, 0xe6db99e5, 0x1fa27cf8, 0xc4ac5665,
   0xf4292244, 0x432aff97, 0xab9423a7, 0xfc93a039,
   0x655b59c3, 0x8f0ccc92, 0xffeff47d, 0x85845dd1,
   0x6fa87e4f, 0xfe2ce6e0, 0xa3014314, 0x4e0811a1,
   0xf7537e82, 0xbd3af235, 0x2ad7d2bb, 0xeb86d391]

/-- 32-bit left rotation on a value `x < 2^32`. -/
def rotl32 (x s : Nat) : Nat :=
  (x * 2 ^ s + x / 2 ^ (32 - s)) % 4294967296

/-- Little-endian 32-bit word at index `j` of a 64-byte chunk. -/
def leWord (chunk : List Nat) (j : Nat) : Nat :=
  chunk.getD (4 * j) 0 + 256 * chunk.getD (4 * j + 1) 0 +
    65536 * chunk.getD (4 * j + 2) 0 + 16777216 * chunk.getD (4 * j + 3) 0

/-- One of the 64 MD5 rounds on state `(a, b, c, d)`; `M` is the word
schedule of the chunk. -/
def md5Round (M : Nat → Nat) (st : Nat × Nat × Nat × Nat) (i : Nat) :
    Nat × Nat × Nat × Nat :=
  let (a, b, c, d) := st
  let mask := 4294967295
  let f :=
    if i < 16 then Nat.lor (Nat.land b c) (Nat.land (Nat.xor b mask) d)
    else if i < 32 then Nat.lor (Nat.land d b) (Nat.land (Nat.xor d mask) c)
    else if i < 48 then Nat.xor (Nat.xor b c) d
    else Nat.xor c (Nat.lor b (Nat.xor d mask))
  let g :=
    if i < 16 then i
    else if i < 32 then (5 * i + 1) % 16
    else if i < 48 then (3 * i + 5) % 16
    else (7 * i) % 16
  let tmp := (f + a + md5K.getD i 0 + M g) % 4294967296
  let bNew := (b + rotl32 tmp (md5s.getD i 0)) % 4294967296
  (d, bNew, b, c)

/-- Process one 64-byte chunk, adding the round outcome into the running
state modulo `2^32`. -/
def md5ProcessChunk (st : Nat × Nat × Nat × Nat) (chunk : List Nat) :
    Nat × Nat × Nat × Nat :=
  let (a0, b0, c0, d0) := st
  let (a, b, c, d) := (List.range 64).foldl (md5Round (leWord chunk)) st
  ((a0 + a) % 4294967296, (b0 + b) % 4294967296,
   (c0 + c) % 4294967296, (d0 + d) % 4294967296)

/-- MD5 padding: `0x80`, zeros up to 56 mod 64, then the bit length as a
64-bit little-endian quantity. -/
def md5Pad (msg : List Nat) : List Nat :=
  let len := msg.length
  let padZeros := (119 - len % 64) % 64
  let bitLen := 8 * len % 18446744073709551616
  msg ++ [128] ++ List.replicate padZeros 0 ++
    [bitLen % 256, bitLen / 256 % 256, bitLen / 65536 % 256,
     bitLen / 16777216 % 256, bitLen / 4294967296 % 256,
     bitLen / 1099511627776 % 256, bitLen / 281474976710656 % 256,
     bitLen / 72057594037927936 % 256]

/-- Split a byte list into 64-byte chunks (`fuel` bounds the recursion; it
is instantiated with the list length, which suffices). -/
def chunkify (fuel : Nat) (l : List Nat) : List (List Nat) :=
  match fuel with
  | 0 => []
  | fuel + 1 => if l.isEmpty then [] else l.take 64 :: chunkify fuel (l.drop 64)

/-- The four bytes of a 32-bit word, little-endian. -/
def wordLE (w : Nat) : List Nat :=
  [w % 256, w / 256 % 256, w / 65536 % 256, w / 16777216 % 256]

/-- The 16-byte MD5 digest of a byte list. -/
def md5Digest (msg : List Nat) : List Nat :=
  let padded := md5Pad msg
  let st :=
    (chunkify padded.length padded).foldl md5ProcessChunk
      (1732584193, 4023233417, 2562383102, 271733878)
  wordLE st.1 ++ wordLE st.2.1 ++ wordLE st.2.2.1 ++ wordLE st.2.2.2

/-- The lowercase hex character of a nibble. -/
def hexChar (d : Nat) : Char :=
  if d < 10 then Char.ofNat (d + 48) else Char.ofNat (d + 87)

/-- `hashlib.md5(bytes).hexdigest()`: the 32-character lowercase hex
rendering of the digest. -/
def md5Hex (msg : List Nat) : String :=
  String.mk ((md5Digest msg).flatMap fun b => [hexChar (b / 16 % 16), hexChar (b % 16)])

/-- The 4096-byte read chunks of `_get_file_hash`s `iter(lambda:
f.read(4096), b"")` loop (`fuel` bounds the recursion; the byte count
suffices). -/
def readChunks4096 (fuel : Nat) (l : List Nat) : List (List Nat) :=
  match fuel with
  | 0 => []
  | fuel + 1 => if l.isEmpty then [] else l.take 4096 :: readChunks4096 fuel (l.drop 4096)

/-- `JSONAnalyzer._get_file_hash(file_path)`: feed the file at `filePath`
(whose content is `fileBytes`) chunk by chunk into an md5 hasher — whose
state is modelled as the byte stream fed so far — and return the hex
digest.  The `filePath` argument is only used to locate the content. -/
def getFileHash (filePath : String) (fileBytes : List Nat) : String :=
  md5Hex ((readChunks4096 fileBytes.length fileBytes).foldl (fun acc chunk => acc ++ chunk) [])

/-! ### Path and string helpers mirroring `pathlib` and Python string
operations. -/

/-- A single-quote character, used in messages the source builds with
f-strings. -/
def sglq : String := String.singleton (Char.ofNat 39)

/-- Python slicing `s[:n]`. -/
def strTake (n : Nat) (s : String) : String := String.mk (s.toList.take n)

/-- `pathlib.Path(p).name`: the component after the last slash. -/
def pathName (p : String) : String :=
  String.mk ((p.toList.reverse.takeWhile fun c => c != '/').reverse)

/-- CPython `PurePath` stem/suffix splitting of a path NAME: the last dot
splits it when that dot is neither the first nor the last character. -/
def splitExt (name : String) : String × String :=
  let cs := name.toList
  let n := cs.length
  let rtail := cs.reverse.takeWhile fun c => c != '.'
  let i := n - 1 - rtail.length
  if rtail.length < n ∧ 0 < i ∧ rtail.length ≠ 0 then
    (String.mk (cs.take i), String.mk (cs.drop i))
  else (name, "")

/-- `pathlib.Path(p).stem`. -/
def pathStem (p : String) : String := (splitExt (pathName p)).1

/-- `pathlib.Path(p).suffix`. -/
def pathSuffix (p : String) : String := (splitExt (pathName p)).2

/-- Python `s.endswith(suffix)`. -/
def strEndsWith (s suffix : String) : Bool := decide (suffix.toList <:+ s.toList)

/-- Python `needle in hay` on strings (substring containment). -/
def strHasSub (hay needle : String) : Bool := decide (needle.toList <:+: hay.toList)

/-! ### The storage world: bucket directories, schema directory, temp
files, remote store, and database connections. -/

/-- The sidecar dictionary written by `JSONAnalyzer._save_metadata`. -/
structure MetaSidecar where
  originalFilename : String
  analysis : AnalysisResult
  analyzedAt : String
  fileSize : Nat
  onlineUrl : Option String
deriving DecidableEq, Repr

/-- Content of a file in a bucket directory: a stored data file (raw
bytes copied by `shutil.copy`) or a `.meta.json` sidecar. -/
inductive DirContent where
  | raw : List Nat → DirContent
  | meta : MetaSidecar → DirContent
deriving DecidableEq, Repr

/-- The schema dictionary written by `JSONAnalyzer._save_metadata`. -/
structure SchemaSidecar where
  originalFilename : String
  storageType : String
  columns : List String
  reason : String
  analyzedAt : String
deriving DecidableEq, Repr

/-- A named file in a bucket directory. -/
structure DirEntry where
  name : String
  content : DirContent
deriving DecidableEq, Repr

/-- The mutable world `store_json_file` acts on: the two local bucket
directories, the schema directory, the temp directory, the Cloudinary
remote store (folder, public id, bytes), and row/document counters for the
SQLite and MongoDB insertions. -/
structure StorageState where
  sqlFiles : List DirEntry
  nosqlFiles : List DirEntry
  schemaFiles : List (String × SchemaSidecar)
  tempFiles : List String
  remoteFiles : List (String × String × List Nat)
  sqlTables : List (String × Nat)
  mongoDocs : List (String × Nat)
deriving DecidableEq, Repr

/-- The empty storage world. -/
def StorageState.empty : StorageState := ⟨[], [], [], [], [], [], []⟩

/-- The read-only run environment: `STORAGE_MODE`, the two clock readings
(`datetime.now().strftime(...)` and `.isoformat()`), and the behaviour of
the external Cloudinary / SQLite / MongoDB collaborators. -/
structure Env where
  storageMode : String
  timestamp : String
  isoNow : String
  cloudinaryOk : Bool
  cloudinarySecureUrl : String
  cloudinaryErrMsg : String
  sqlConnOk : Bool
  mongoOk : Bool
deriving DecidableEq, Repr

/-- The result dictionary of `store_json_file`; Python builds dicts with
per-path key sets, modelled as optional fields defaulting to `none`. -/
structure StoreResult where
  success : Bool
  message : Option String := none
  error : Option String := none
  originalName : Option String := none
  storedName : Option String := none
  storageType : Option String := none
  finalPath : Option String := none
  localPath : Option String := none
  onlineUrl : Option String := none
  databaseName : Option String := none
  databaseResult : Option String := none
  reason : Option String := none
  fileHash : Option String := none
  timestamp : Option String := none
  duplicate : Option Bool := none
deriving DecidableEq, Repr

/-- The local directory of a bucket (`self.sql_path` / `self.nosql_path`),
selected the way `_check_duplicate` and `store_json_file` select it:
`"sql"` goes to the sql bucket, anything else to the nosql bucket. -/
def bucketDir (storageType : String) : String :=
  if storageType = "sql" then "app/storage/databases/sql/"
  else "app/storage/databases/nosql/"

/-- The entries of the bucket directory a storage type maps to. -/
def bucketFiles (st : StorageState) (storageType : String) : List DirEntry :=
  if storageType = "sql" then st.sqlFiles else st.nosqlFiles

/-- Writing a file into a directory: an existing file of the same name is
overwritten, otherwise the file is appended. -/
def putEntry (files : List DirEntry) (e : DirEntry) : List DirEntry :=
  if files.any fun f => f.name = e.name then
    files.map fun f => if f.name = e.name then e else f
  else files ++ [e]

/-- Writing a file into the bucket directory of a storage type. -/
def putBucket (st : StorageState) (storageType : String) (e : DirEntry) : StorageState :=
  if storageType = "sql" then { st with sqlFiles := putEntry st.sqlFiles e }
  else { st with nosqlFiles := putEntry st.nosqlFiles e }

/-- `Path(p).unlink(missing_ok=True)` on a temp file. -/
def unlinkTemp (st : StorageState) (p : String) : StorageState :=
  { st with tempFiles := st.tempFiles.filter fun q => q != p }

/-- The per-file filter of `JSONAnalyzer._check_duplicate`: a stored file
matches when its name ends in `.json`, does not end in `.meta.json` or
`.schema.json`, and contains the (full) fingerprint as a substring. -/
def dupMatches (fileHash : String) (e : DirEntry) : Bool :=
  strEndsWith e.name ".json" && !(strEndsWith e.name ".meta.json") &&
    !(strEndsWith e.name ".schema.json") && strHasSub e.name fileHash

/-- `JSONAnalyzer._check_duplicate(file_hash, storage_type)`: scan the
bucket directory and return the path of the first match, else `""`. -/
def checkDuplicate (st : StorageState) (fileHash storageType : String) : String :=
  match (bucketFiles st storageType).find? (dupMatches fileHash) with
  | some e => bucketDir storageType ++ e.name
  | none => ""

/-- The name sanitizer of `_store_in_sql` (alphanumeric or underscore). -/
def sanitizeSql (s : String) : String :=
  String.mk (s.toList.filter fun c => c.isAlphanum || c = '_')

/-- `JSONAnalyzer._store_in_sql(data, table_name)`: inserts the rows into
SQLite and reports a message; modelled by recording the row count. -/
def storeInSql (env : Env) (st : StorageState) (data : List Json) (tableName : String) :
    String × StorageState :=
  if !env.sqlConnOk then ("SQL connection not available.", st)
  else if data.isEmpty then ("No data to store", st)
  else
    let safeTableName := sanitizeSql tableName
    ("Stored " ++ toString data.length ++ " rows in SQL table " ++
       sglq ++ safeTableName ++ sglq,
     { st with sqlTables := st.sqlTables ++ [(safeTableName, data.length)] })

/-- The name sanitizer of `_store_in_nosql` (alphanumeric, underscore or
hyphen). -/
def sanitizeMongo (s : String) : String :=
  String.mk (s.toList.filter fun c => c.isAlphanum || c = '_' || c = '-')

/-- `JSONAnalyzer._store_in_nosql(data, collection_name)`: inserts the
document(s) into MongoDB and reports a message; modelled by recording the
document count. -/
def storeInNosql (env : Env) (st : StorageState) (data : Json) (collectionName : String) :
    String × StorageState :=
  if !env.mongoOk then ("MongoDB connection not available.", st)
  else
    let safe0 := sanitizeMongo collectionName
    let safeName := if safe0 = "" then "default_collection" else safe0
    match data with
    | .arr [] => ("No data to store", st)
    | .arr xs =>
        ("Stored " ++ toString xs.length ++ " documents in MongoDB collection " ++
           sglq ++ safeName ++ sglq,
         { st with mongoDocs := st.mongoDocs ++ [(safeName, xs.length)] })
    | _ =>
        ("Stored 1 document in MongoDB collection " ++ sglq ++ safeName ++ sglq,
         { st with mongoDocs := st.mongoDocs ++ [(safeName, 1)] })

/-- `JSONAnalyzer._save_metadata(file_path, analysis, original_name,
online_url)`: writes the `.meta.json` sidecar next to the stored file and
the `.schema.json` record in the schema directory. -/
def saveMetadata (env : Env) (st : StorageState) (storageType newFileName : String)
    (analysis : AnalysisResult) (originalName : String) (fileSize : Nat)
    (onlineUrl : Option String) : StorageState :=
  let metaName := pathStem newFileName ++ ".meta.json"
  let st1 := putBucket st storageType
    ⟨metaName, .meta ⟨originalName, analysis, env.isoNow, fileSize, onlineUrl⟩⟩
  let schemaName := pathStem newFileName ++ ".schema.json"
  let schemaInfo : SchemaSidecar :=
    ⟨originalName, analysis.recommendation,
     (analysis.columns.getD (analysis.keys.getD [])), analysis.reason, env.isoNow⟩
  { st1 with schemaFiles := st1.schemaFiles ++ [(schemaName, schemaInfo)] }

/-- Step 5 of `store_json_file` (database storage): route the parsed
content to `_store_in_sql` (wrapping a dict as a one-element list, and
skipping anything that is not a list of objects) or `_store_in_nosql`. -/
def dbStore (env : Env) (st : StorageState) (recommendation : String) (data : Json)
    (dbName : String) : String × StorageState :=
  if recommendation = "sql" then
    match data with
    | .obj fs => storeInSql env st [Json.obj fs] dbName
    | .arr [] => storeInSql env st [] dbName
    | .arr (x :: xs) =>
        if x.isObj then storeInSql env st (x :: xs) dbName
        else ("SQL storage skipped: data is not a list of objects.", st)
    | _ => ("SQL storage skipped: data is not a list of objects.", st)
  else storeInNosql env st data dbName

/-- `JSONAnalyzer.store_json_file(file_path, original_name, analysis)`.
`fileBytes` is the content of the temp file at `filePath` and `fileParsed`
the outcome Python `json.load` produces for it at step 5 (an `.error`
models the raised `JSONDecodeError`, which the outer `except` turns into a
failure dictionary after unlinking the temp file; the explicit
`ValueError` raised on a Cloudinary failure in `online` mode is modelled
the same way). -/
def storeJsonFile (env : Env) (st : StorageState) (filePath : String)
    (fileBytes : List Nat) (fileParsed : Except String Json)
    (originalName : String) (analysis : AnalysisResult) : StoreResult × StorageState :=
  let storageMode := env.storageMode
  let recommendation := analysis.recommendation
  let fileHash := getFileHash filePath fileBytes
  let dup := checkDuplicate st fileHash recommendation
  if dup != "" then
    ({ success := true, message := some "File already exists (duplicate detected)",
       originalName := some originalName, storedName := some (pathName dup),
       storageType := some recommendation.toUpper, finalPath := some dup,
       reason := some analysis.reason, duplicate := some true },
     unlinkTemp st filePath)
  else
    let nameStem := pathStem originalName
    let extension := pathSuffix originalName
    let newFileName := nameStem ++ "_" ++ env.timestamp ++ "_" ++ strTake 8 fileHash ++ extension
    let dbName := nameStem ++ "_" ++ env.timestamp
    let localTargetPath := bucketDir recommendation ++ newFileName
    let cloudinaryFolder := if recommendation = "sql" then "json/sql" else "json/nosql"
    let publicId := pathStem newFileName
    let doLocal := storageMode = "local" || storageMode = "both"
    let doOnline := storageMode = "online" || storageMode = "both"
    let st1 := if doLocal then putBucket st recommendation ⟨newFileName, .raw fileBytes⟩ else st
    let localPathVal : Option String := if doLocal then some localTargetPath else none
    if doOnline && !env.cloudinaryOk && storageMode = "online" then
      ({ success := false,
         error := some ("Cloudinary upload failed: " ++ env.cloudinaryErrMsg) },
       unlinkTemp st1 filePath)
    else
      let uploaded := doOnline && env.cloudinaryOk
      let st2 := if uploaded then
          { st1 with remoteFiles := st1.remoteFiles ++ [(cloudinaryFolder, publicId, fileBytes)] }
        else st1
      let onlineUrlVal : Option String := if uploaded then some env.cloudinarySecureUrl else none
      match fileParsed with
      | .error e => ({ success := false, error := some e }, unlinkTemp st2 filePath)
      | .ok data =>
        let dbOutcome := dbStore env st2 recommendation data dbName
        let st3 := dbOutcome.2
        let st4 := if doLocal then
            saveMetadata env st3 recommendation newFileName analysis originalName
              fileBytes.length onlineUrlVal
          else st3
        ({ success := true, originalName := some originalName,
           storedName := some newFileName, storageType := some recommendation.toUpper,
           localPath := localPathVal, onlineUrl := onlineUrlVal,
           databaseName := some dbName, databaseResult := some dbOutcome.1,
           reason := some analysis.reason, fileHash := some fileHash,
           timestamp := some env.timestamp, duplicate := some false },
         unlinkTemp st4 filePath)

/-- The per-upload core of `json_routes.upload_json`: analyze the saved
temp file, then store it (`fileSize` of the analysis step is the byte
count of the uploaded content). -/
def uploadPipeline (env : Env) (st : StorageState) (tempPath : String)
    (fileBytes : List Nat) (fileParsed : Except String Json)
    (originalName : String) : StoreResult × StorageState :=
  let analysis := analyzeJsonFile fileBytes.length fileParsed
  storeJsonFile env st tempPath fileBytes fileParsed originalName analysis

/-! ### Helper lemmas: nesting depth. -/

theorem depthItems_le (xs : List Json) (d : Nat) :
    ∀ m, m ≤ depthItems xs d m := by
  induction xs with
  | nil => intro m; simp [depthItems]
  | cons x rest ih =>
    intro m
    simp only [depthItems]
    split
    · exact le_trans (le_max_left m _) (ih _)
    · exact ih m

theorem depthValues_le (fs : List (String × Json)) (d : Nat) :
    ∀ m, m ≤ depthValues fs d m := by
  induction fs with
  | nil => intro m; simp [depthValues]
  | cons p rest ih =>
    intro m
    obtain ⟨k, v⟩ := p
    simp only [depthValues]
    split
    · exact le_trans (le_max_left m _) (ih _)
    · exact ih m

theorem calculateDepth_le (j : Json) (d : Nat) : d ≤ calculateDepth j d := by
  cases j <;> simp only [calculateDepth] <;>
    first
      | exact le_refl d
      | exact depthItems_le _ d d
      | exact depthValues_le _ d d

theorem depthValues_of_flat (fs : List (String × Json)) (d : Nat)
    (h : ∀ p ∈ fs, p.2.isContainer = false) : ∀ m, depthValues fs d m = m := by
  induction fs with
  | nil => intro m; simp [depthValues]
  | cons p rest ih =>
    intro m
    obtain ⟨k, v⟩ := p
    have hv : v.isContainer = false := h (k, v) (by simp)
    simp only [depthValues, hv, if_neg]
    exact ih (fun q hq => h q (List.mem_cons_of_mem _ hq)) m

theorem depthValues_ge_elem (fs : List (String × Json)) (d : Nat) (k : String) (v : Json)
    (hmem : (k, v) ∈ fs) (hc : v.isContainer = true) :
    ∀ m, calculateDepth v (d + 1) ≤ depthValues fs d m := by
  induction fs with
  | nil => cases hmem
  | cons p rest ih =>
    intro m
    obtain ⟨k2, v2⟩ := p
    rcases List.mem_cons.mp hmem with heq | htail
    · obtain ⟨hk, hv⟩ := Prod.mk.injEq .. ▸ (by exact heq.symm ▸ rfl : (k2, v2) = (k, v))
      subst hv
      simp only [depthValues, hc, if_pos]
      exact le_trans (le_max_right m _) (depthValues_le rest d _)
    · simp only [depthValues]
      exact ih htail _

/-- The depth of a top-level object is zero exactly when no value of the
object is itself a dict or list. -/
theorem obj_depth_zero_iff (fs : List (String × Json)) :
    calculateDepth (Json.obj fs) 0 = 0 ↔ ∀ p ∈ fs, p.2.isContainer = false := by
  constructor
  · intro h0
    by_contra hex
    push_neg at hex
    obtain ⟨p, hp, hc⟩ := hex
    have hc' : p.2.isContainer = true := by
      cases hb : p.2.isContainer
      · exact absurd hb hc
      · rfl
    have h1 : calculateDepth p.2 1 ≤ depthValues fs 0 0 :=
      depthValues_ge_elem fs 0 p.1 p.2 (by simpa using hp) hc' 0
    have h2 : 1 ≤ calculateDepth p.2 1 := calculateDepth_le p.2 1
    have : 1 ≤ calculateDepth (Json.obj fs) 0 := by
      simp only [calculateDepth]
      exact le_trans h2 h1
    omega
  · intro hflat
    simp only [calculateDepth]
    exact depthValues_of_flat fs 0 hflat 0

/-! ### Claim C3: object classification. -/

/-- C3: for a top-level JSON object the classifier recommends the
row-oriented bucket (`"sql"`) exactly when no value of the object is
itself a dict or list, recording the key list in that case; otherwise it
recommends the document-oriented bucket (`"nosql"`) and records a nesting
depth of at least 1. -/
theorem object_flat_iff_row (fs : List (String × Json)) :
    ((analyzeObject fs).recommendation = "sql" ↔ ∀ p ∈ fs, p.2.isContainer = false)
    ∧ ((∀ p ∈ fs, p.2.isContainer = false) →
        (analyzeObject fs).keys = some (fs.map Prod.fst))
    ∧ ((¬ ∀ p ∈ fs, p.2.isContainer = false) →
        (analyzeObject fs).recommendation = "nosql"
        ∧ ∃ n, (analyzeObject fs).nestingLevel = some n ∧ 1 ≤ n) := by
  by_cases hflat : ∀ p ∈ fs, p.2.isContainer = false
  · have h0 : calculateDepth (Json.obj fs) 0 = 0 := (obj_depth_zero_iff fs).mpr hflat
    have hform : analyzeObject fs =
        { recommendation := "sql", reason := "Flat structure",
          keys := some (fs.map Prod.fst) } := by
      simp [analyzeObject, h0]
    exact ⟨by rw [hform]; simpa using hflat, fun _ => by rw [hform],
      fun h => absurd hflat h⟩
  · have h1 : 1 ≤ calculateDepth (Json.obj fs) 0 := by
      have hex := hflat
      push_neg at hex
      obtain ⟨p, hmem, hc⟩ := hex
      have hc' : p.2.isContainer = true := by
        revert hc
        cases p.2.isContainer <;> simp
      have hle : calculateDepth p.2 1 ≤ depthValues fs 0 0 :=
        depthValues_ge_elem fs 0 p.1 p.2 (by simpa using hmem) hc' 0
      calc 1 ≤ calculateDepth p.2 1 := calculateDepth_le p.2 1
        _ ≤ depthValues fs 0 0 := hle
        _ = calculateDepth (Json.obj fs) 0 := by simp [calculateDepth]
    have hform : analyzeObject fs =
        { recommendation := "nosql",
          reason := "Nested data (depth: " ++ toString (calculateDepth (Json.obj fs) 0) ++ ")",
          nestingLevel := some (calculateDepth (Json.obj fs) 0) } := by
      simp [analyzeObject, h1]
    have hrec : (analyzeObject fs).recommendation = "nosql" := by rw [hform]
    have hnest : (analyzeObject fs).nestingLevel = some (calculateDepth (Json.obj fs) 0) := by
      rw [hform]
    refine ⟨?_, fun h => absurd h hflat, fun _ => ?_⟩
    · rw [hrec]
      constructor
      · intro habs
        exact absurd habs (by decide)
      · intro h
        exact absurd h hflat
    · exact ⟨hrec, calculateDepth (Json.obj fs) 0, hnest, h1⟩

/-- Witness for C3 at concrete flat and nested objects. -/
theorem object_flat_iff_row_witness :
    (analyzeObject [("id", Json.num 1), ("name", Json.str "Ann")]).recommendation = "sql"
    ∧ (analyzeObject [("id", Json.num 1), ("profile", Json.obj [("age", Json.num 25)])]).recommendation
        = "nosql" :=
  ⟨(object_flat_iff_row _).1.mpr (by decide),
   ((object_flat_iff_row _).2.2 (by decide)).1⟩

/-! ### Claim C7: oversized inputs short-circuit. -/

/-- C7: for any content above the 10 MB ceiling, the analyzer returns the
document-oriented bucket with the fixed too-large reason, independent of
the parsed content (no structural inspection). -/
theorem oversized_short_circuit (fileSize : Nat) (parsed : Except String Json)
    (h : 10 * 1024 * 1024 < fileSize) :
    analyzeJsonFile fileSize parsed =
      { recommendation := "nosql", reason := "File too large for SQL optimization" } := by
  simp only [analyzeJsonFile, gt_iff_lt, if_pos h]

/-- Witness for C7 one byte above the ceiling. -/
theorem oversized_short_circuit_witness :
    analyzeJsonFile 10485761 (Except.ok (Json.obj [("id", Json.num 1)])) =
      { recommendation := "nosql", reason := "File too large for SQL optimization" } :=
  oversized_short_circuit 10485761 _ (by norm_num)

/-! ### Claim C8: arrays of objects with non-uniform key sets. -/

/-- Counterexample to C8 as stated: an all-object sample with
non-identical key sets where the first element is nested is reported with
the nesting reason, not `"Variable structure"` — the depth check runs
before the uniformity check. -/
theorem variable_structure_order_counterexample :
    (([Json.obj [("a", Json.obj [])], Json.obj [("c", Json.num 2)]].take
        (min 10 [Json.obj [("a", Json.obj [])], Json.obj [("c", Json.num 2)]].length)).all
        Json.isObj = true)
    ∧ (([Json.obj [("a", Json.obj [])], Json.obj [("c", Json.num 2)]].take
        (min 10 [Json.obj [("a", Json.obj [])], Json.obj [("c", Json.num 2)]].length)).all
        (fun item => sameKeySet (Json.keysOf item)
          ((Json.keysOf (Json.obj [("a", Json.obj [])])).eraseDups)) = false)
    ∧ (analyzeArray [Json.obj [("a", Json.obj [])], Json.obj [("c", Json.num 2)]]).reason
        = "Nested data structure (depth: 1)"
    ∧ ¬ (analyzeArray [Json.obj [("a", Json.obj [])], Json.obj [("c", Json.num 2)]]).reason
        = "Variable structure" := by
  decide

/-- C8 as amended: for a top-level array whose sampled elements are all
objects but not key-uniform, the classifier recommends the
document-oriented bucket; the reason is `"Variable structure"` when the
first sampled element is flat (the nesting-depth branch, which is decided
first, then does not fire). -/
theorem variable_structure_amended (first : Json) (rest : List Json)
    (hobj : ((first :: rest).take (min 10 (first :: rest).length)).all Json.isObj = true)
    (hvar : ((first :: rest).take (min 10 (first :: rest).length)).all
        (fun item => sameKeySet (Json.keysOf item) ((Json.keysOf first).eraseDups)) = false) :
    (analyzeArray (first :: rest)).recommendation = "nosql"
    ∧ (calculateDepth first 0 = 0 →
        (analyzeArray (first :: rest)).reason = "Variable structure") := by
  simp only [analyzeArray, hobj, hvar, Bool.not_true, Bool.false_eq_true, if_false,
    Bool.false_and]
  constructor
  · split <;> rfl
  · intro h0
    rw [if_neg (by omega)]

/-- Witness for C8 (amended) at a concrete flat non-uniform array. -/
theorem variable_structure_amended_witness :
    (analyzeArray [Json.obj [("a", Json.num 1)], Json.obj [("b", Json.num 2)]]).recommendation
      = "nosql"
    ∧ (analyzeArray [Json.obj [("a", Json.num 1)], Json.obj [("b", Json.num 2)]]).reason
      = "Variable structure" := by
  have h := variable_structure_amended (Json.obj [("a", Json.num 1)])
    [Json.obj [("b", Json.num 2)]] (by decide) (by decide)
  exact ⟨h.1, h.2 (by decide)⟩

/-! ### Claim C9: determinism of fingerprinting and classification. -/

theorem foldl_append_eq (cs : List (List Nat)) :
    ∀ acc : List Nat, cs.foldl (fun acc chunk => acc ++ chunk) acc = acc ++ cs.flatten := by
  induction cs with
  | nil => intro acc; simp
  | cons c cs ih => intro acc; simp [ih, List.append_assoc]

theorem readChunks4096_flatten (fuel : Nat) :
    ∀ l : List Nat, l.length ≤ fuel → (readChunks4096 fuel l).flatten = l := by
  induction fuel with
  | zero =>
    intro l h
    have : l = [] := List.eq_nil_of_length_eq_zero (Nat.le_zero.mp h)
    simp [readChunks4096, this]
  | succ fuel ih =>
    intro l h
    by_cases hl : l.isEmpty
    · have : l = [] := List.isEmpty_iff.mp hl
      simp [readChunks4096, this]
    · have hne : l ≠ [] := fun habs => hl (by simp [habs])
      have hlen : 1 ≤ l.length := List.length_pos.mpr hne
      simp only [readChunks4096, hl, Bool.false_eq_true, if_false, List.flatten_cons]
      rw [ih (l.drop 4096) (by simp; omega)]
      exact List.take_append_drop 4096 l

/-- Feeding the file chunkwise hashes exactly the whole content. -/
theorem getFileHash_eq_md5Hex (p : String) (bytes : List Nat) :
    getFileHash p bytes = md5Hex bytes := by
  unfold getFileHash
  rw [foldl_append_eq, List.nil_append, readChunks4096_flatten _ _ le_rfl]

/-- C9: fingerprinting and classification are pure functions of the byte
content and the parsed value: the hash does not depend on the file
location (nor, a fortiori, on the original filename or the clock, which
are not inputs at all), chunked hashing equals hashing the whole content,
re-running the classifier gives the identical result, and the fingerprint
recorded by a completed store is determined by the bytes alone, whatever
the environment, target filename and prior state. -/
theorem fingerprint_classification_deterministic (path1 path2 : String)
    (bytes : List Nat) (parsed : Except String Json) (sz : Nat) :
    getFileHash path1 bytes = getFileHash path2 bytes
    ∧ getFileHash path1 bytes = md5Hex bytes
    ∧ analyzeJsonFile sz parsed = analyzeJsonFile sz parsed
    ∧ (∀ (env : Env) (st : StorageState) (name : String) (analysis : AnalysisResult),
        (storeJsonFile env st path1 bytes parsed name analysis).1.duplicate = some false →
        (storeJsonFile env st path1 bytes parsed name analysis).1.fileHash
          = some (md5Hex bytes)) := by
  refine ⟨by rw [getFileHash_eq_md5Hex, getFileHash_eq_md5Hex],
    getFileHash_eq_md5Hex path1 bytes, rfl, ?_⟩
  intro env st name analysis
  rw [← getFileHash_eq_md5Hex path1 bytes]
  simp only [storeJsonFile]
  split
  · intro h
    simp at h
  · split
    · intro h
      simp at h
    · split
      · intro h
        simp at h
      · intro h
        rfl

/-- Witness for C9 at a concrete store. -/
theorem fingerprint_classification_deterministic_witness :
    getFileHash "temp/a.json" [49] = getFileHash "temp/b.json" [49]
    ∧ (storeJsonFile ⟨"local", "ts", "iso", true, "u", "e", true, true⟩
        StorageState.empty "temp/a.json" [49] (Except.ok (Json.num 1)) "a.json"
        (analyzeJsonFile 1 (Except.ok (Json.num 1)))).1.fileHash = some (md5Hex [49]) :=
  ⟨(fingerprint_classification_deterministic "temp/a.json" "temp/b.json" [49]
      (Except.ok (Json.num 1)) 1).1,
   (fingerprint_classification_deterministic "temp/a.json" "temp/b.json" [49]
      (Except.ok (Json.num 1)) 1).2.2.2 _ _ "a.json" _ (by decide)⟩

/-! ### Claim C6: unconditional temp-file cleanup. -/

theorem filter_ne_not_contains (l : List String) (p : String) :
    ((l.filter fun q => q != p).contains p) = false := by
  induction l with
  | nil => rfl
  | cons q rest ih =>
    simp only [List.filter_cons]
    by_cases hq : q = p
    · simp [hq, ih]
    · have h1 : (q != p) = true := by simp [bne_iff_ne, hq]
      simp [h1, List.contains_cons, ih, Ne.symm hq]

theorem unlinkTemp_not_contains (st : StorageState) (p : String) :
    ((unlinkTemp st p).tempFiles.contains p) = false := by
  simp only [unlinkTemp]
  exact filter_ne_not_contains st.tempFiles p

theorem not_mem_unlinkTemp (st : StorageState) (p : String) :
    p ∉ (unlinkTemp st p).tempFiles := by
  intro h
  rw [unlinkTemp] at h
  rcases List.mem_filter.mp h with ⟨-, hp⟩
  simp at hp

/-- C6: whatever the outcome of `store_json_file` — duplicate
short-circuit, Cloudinary hard failure, JSON re-parse failure, or success
— the transient temp file is deleted from the temp directory. -/
theorem temp_always_cleaned (env : Env) (st : StorageState) (filePath : String)
    (fileBytes : List Nat) (fileParsed : Except String Json)
    (originalName : String) (analysis : AnalysisResult) :
    ((storeJsonFile env st filePath fileBytes fileParsed
        originalName analysis).2.tempFiles.contains filePath) = false := by
  simp only [storeJsonFile]
  split
  · exact unlinkTemp_not_contains _ _
  · split
    · exact unlinkTemp_not_contains _ _
    · split
      · exact unlinkTemp_not_contains _ _
      · exact unlinkTemp_not_contains _ _

/-- Witness for C6 at a concrete failing store (invalid JSON). -/
theorem temp_always_cleaned_witness :
    ((storeJsonFile ⟨"local", "ts", "iso", true, "u", "e", true, true⟩
        ⟨[], [], [], ["app/storage/temp/temp_x.json"], [], [], []⟩
        "app/storage/temp/temp_x.json" [123] (Except.error "Expecting value")
        "x.json" (analyzeJsonFile 1 (Except.error "Expecting value"))).2.tempFiles.contains
          "app/storage/temp/temp_x.json") = false :=
  temp_always_cleaned _ _ _ _ _ _ _

/-! ### Helper lemmas: strings, path names, stem/suffix structure. -/

theorem toList_mk (l : List Char) : (String.mk l).toList = l := rfl

theorem string_eq_of_toList {a b : String} (h : a.toList = b.toList) : a = b := by
  cases a
  cases b
  exact congrArg String.mk h

theorem toList_append (a b : String) : (a ++ b).toList = a.toList ++ b.toList := by
  cases a
  cases b
  rfl

theorem takeWhile_eq_self_of (p : Char → Bool) (l : List Char)
    (h : ∀ c ∈ l, p c = true) : l.takeWhile p = l := by
  induction l with
  | nil => rfl
  | cons c rest ih =>
    rw [List.takeWhile_cons, h c (by simp)]
    simpa using ih fun d hd => h d (by simp [hd])

theorem pathName_no_slash (p : String) : ∀ c ∈ (pathName p).toList, c ≠ '/' := by
  intro c hc
  have hmem : c ∈ (p.toList.reverse.takeWhile fun c => c != '/') := by
    simpa [pathName, toList_mk, List.mem_reverse] using hc
  simpa using List.mem_takeWhile_imp hmem

theorem pathName_eq_self (p : String) (h : ∀ c ∈ p.toList, c ≠ '/') : pathName p = p := by
  apply string_eq_of_toList
  rw [pathName, toList_mk]
  rw [takeWhile_eq_self_of _ _ fun c hc => by
    simpa using h c (List.mem_reverse.mp hc)]
  exact List.reverse_reverse _

theorem dropWhile_ne_dot (r : List Char) :
    r.dropWhile (fun c => c != '.') = []
    ∨ ∃ t, r.dropWhile (fun c => c != '.') = '.' :: t := by
  induction r with
  | nil => exact Or.inl rfl
  | cons c rest ih =>
    by_cases hc : c = '.'
    · exact Or.inr ⟨rest, by simp [List.dropWhile_cons, hc]⟩
    · have hb : (c != '.') = true := by simp [hc]
      simpa [List.dropWhile_cons, hb] using ih

/-- Structure of the CPython stem/suffix split: either there is no split
(suffix empty, stem whole), or the suffix is a dot followed by a nonempty
dot-free tail, and stem ++ suffix reassembles the name. -/
theorem splitExt_cases (name : String) :
    splitExt name = (name, "")
    ∨ ∃ s : List Char, s ≠ [] ∧ (∀ c ∈ s, c ≠ '.')
        ∧ (splitExt name).2.toList = '.' :: s
        ∧ (splitExt name).1.toList ++ '.' :: s = name.toList := by
  rcases dropWhile_ne_dot name.toList.reverse with hnil | ⟨t, ht⟩
  · left
    have hsplit := List.takeWhile_append_dropWhile
      (fun c => c != '.') name.toList.reverse
    rw [hnil, List.append_nil] at hsplit
    have hlen : (name.toList.reverse.takeWhile fun c => c != '.').length
        = name.toList.length := by
      rw [hsplit, List.length_reverse]
    simp only [splitExt]
    rw [if_neg]
    intro hcond
    omega
  · have hsplit := List.takeWhile_append_dropWhile
      (fun c => c != '.') name.toList.reverse
    rw [ht] at hsplit
    have hdecomp : name.toList
        = t.reverse ++ '.' :: (name.toList.reverse.takeWhile fun c => c != '.').reverse := by
      have h2 := congrArg List.reverse hsplit
      rw [List.reverse_append, List.reverse_reverse] at h2
      conv_lhs => rw [← h2]
      rw [List.reverse_cons, List.append_assoc, List.singleton_append]
    have hlen_t := congrArg List.length hdecomp
    simp only [List.length_append, List.length_reverse, List.length_cons] at hlen_t
    by_cases hcond : ((name.toList.reverse.takeWhile fun c => c != '.').length
          < name.toList.length
        ∧ 0 < name.toList.length - 1
            - (name.toList.reverse.takeWhile fun c => c != '.').length
        ∧ (name.toList.reverse.takeWhile fun c => c != '.').length ≠ 0)
    · right
      have hi : name.toList.length - 1
          - (name.toList.reverse.takeWhile fun c => c != '.').length = t.length := by
        omega
      have hdrop : name.toList.drop (name.toList.length - 1
          - (name.toList.reverse.takeWhile fun c => c != '.').length)
          = '.' :: (name.toList.reverse.takeWhile fun c => c != '.').reverse := by
        rw [hi]
        conv_lhs => rw [hdecomp]
        rw [show t.length = t.reverse.length from (List.length_reverse t).symm]
        exact List.drop_left _ _
      refine ⟨(name.toList.reverse.takeWhile fun c => c != '.').reverse, ?_, ?_, ?_, ?_⟩
      · intro habs
        have hlz := congrArg List.length habs
        simp only [List.length_reverse, List.length_nil] at hlz
        exact hcond.2.2 hlz
      · intro c hc
        simpa using List.mem_takeWhile_imp (List.mem_reverse.mp hc)
      · simp only [splitExt]
        rw [if_pos hcond, toList_mk]
        exact hdrop
      · simp only [splitExt]
        rw [if_pos hcond, toList_mk, ← hdrop]
        exact List.take_append_drop _ _
    · left
      simp only [splitExt]
      rw [if_neg hcond]

theorem splitExt_fst_subset (m : String) : ∀ c ∈ (splitExt m).1.toList, c ∈ m.toList := by
  intro c hc
  simp only [splitExt] at hc
  split at hc
  · rw [toList_mk] at hc
    exact List.mem_of_mem_take hc
  · exact hc

/-- The `.meta.json` sidecar name written next to a stored file never
collides with the stored file name itself. -/
theorem metaName_ne (n : String) : pathStem n ++ ".meta.json" ≠ n := by
  intro heq
  by_cases hs : ∀ c ∈ n.toList, c ≠ '/'
  · have hpn : pathName n = n := pathName_eq_self n hs
    rcases splitExt_cases n with h | ⟨s, _hne, hdot, _h2, h1⟩
    · have hfst : pathStem n = n := by
        unfold pathStem
        rw [hpn, h]
      rw [hfst] at heq
      have h2 := congrArg (fun s : String => s.toList.length) heq
      simp only [toList_append, List.length_append] at h2
      have h10 : (".meta.json").toList.length = 10 := rfl
      omega
    · have htl := congrArg String.toList heq
      rw [toList_append] at htl
      unfold pathStem at htl
      rw [hpn] at htl
      rw [← h1] at htl
      have hm : (".meta.json").toList = '.' :: s := List.append_cancel_left htl
      have hs_eq : s = 'm' :: 'e' :: 't' :: 'a' :: '.' :: 'j' :: 's' :: 'o' :: 'n' :: [] := by
        have hm2 : ('.' :: 'm' :: 'e' :: 't' :: 'a' :: '.' :: 'j' :: 's' :: 'o' :: 'n' :: []
            : List Char) = '.' :: s := hm
        exact ((List.cons.injEq ..).mp hm2).2.symm
      have hdotmem : ('.' : Char) ∈ s := by
        rw [hs_eq]
        decide
      exact hdot '.' hdotmem rfl
  · push_neg at hs
    obtain ⟨c, hc, hceq⟩ := hs
    subst hceq
    have hmeta_ns : ∀ c2 ∈ (pathStem n ++ ".meta.json").toList, c2 ≠ '/' := by
      intro c2 hc2
      rw [toList_append] at hc2
      rcases List.mem_append.mp hc2 with h | h
      · exact pathName_no_slash n c2 (splitExt_fst_subset (pathName n) c2 h)
      · intro habs
        subst habs
        exact absurd h (by decide)
    rw [heq] at hmeta_ns
    exact hmeta_ns '/' hc rfl

/-! ### Helper lemmas: hex digests and suffix trimming. -/

/-- The sixteen lowercase hex digit characters. -/
def hexDigits : List Char := "0123456789abcdef".toList

theorem hexChar_mem_hexDigits (d : Nat) : hexChar (d % 16) ∈ hexDigits := by
  have h : d % 16 < 16 := Nat.mod_lt _ (by norm_num)
  set k := d % 16 with hk
  interval_cases k <;> decide

theorem md5Digest_length (msg : List Nat) : (md5Digest msg).length = 16 := by
  simp [md5Digest, wordLE]

theorem flatMap_pairs_length (l : List Nat) (f g : Nat → Char) :
    (l.flatMap fun b => [f b, g b]).length = 2 * l.length := by
  induction l with
  | nil => rfl
  | cons b rest ih =>
    simp only [List.flatMap_cons, List.length_append, ih, List.length_cons,
      List.length_nil, List.length_cons]
    omega

theorem mem_md5Hex_hex (msg : List Nat) :
    ∀ c ∈ (md5Hex msg).toList, c ∈ hexDigits := by
  intro c hc
  rw [md5Hex, toList_mk] at hc
  rcases List.mem_flatMap.mp hc with ⟨b, _hb, hcb⟩
  rcases List.mem_cons.mp hcb with rfl | h2
  · exact hexChar_mem_hexDigits _
  · rw [List.mem_singleton.mp h2]
    exact hexChar_mem_hexDigits _

theorem md5Hex_toList_length (msg : List Nat) : (md5Hex msg).toList.length = 32 := by
  rw [md5Hex, toList_mk, flatMap_pairs_length, md5Digest_length]

theorem isSuffix_of_append_left {l1 l2 l3 : List Char}
    (h : l2 <:+ l1 ++ l3) (hlen : l2.length ≤ l3.length) : l2 <:+ l3 := by
  obtain ⟨t, ht⟩ := h
  have hlt : l1.length ≤ t.length := by
    have := congrArg List.length ht
    simp only [List.length_append] at this
    omega
  refine ⟨t.drop l1.length, ?_⟩
  have h3 : l3 = (l1 ++ l3).drop l1.length := (List.drop_left l1 l3).symm
  have h4 : (t ++ l2).drop l1.length = t.drop l1.length ++ l2 := by
    rw [List.drop_append_eq_append_drop, Nat.sub_eq_zero_of_le hlt, List.drop_zero]
  rw [h3, ← ht, h4]

theorem isSuffix_of_cons {a : Char} {l2 l : List Char}
    (h : l2 <:+ a :: l) (hlen : l2.length ≤ l.length) : l2 <:+ l := by
  have h2 : l2 <:+ [a] ++ l := by simpa using h
  exact isSuffix_of_append_left h2 hlen

/-- A name of the form `pre ++ hash8 ++ ext` — eight lowercase hex digest
characters followed by the original extension — never ends in `.json`
unless the extension is exactly `.json`. -/
theorem json_suffix_impossible (pre h8 : List Char) (ext : String)
    (hlen : h8.length = 8)
    (hhex : ∀ c ∈ h8, c ∈ hexDigits)
    (hext : ext = "" ∨ ∃ s, s ≠ [] ∧ (∀ c ∈ s, c ≠ '.') ∧ ext.toList = '.' :: s)
    (hne : ext ≠ ".json") :
    ¬ ((".json").toList <:+ pre ++ (h8 ++ ext.toList)) := by
  intro hsuf
  have h5 : (".json").toList.length = 5 := rfl
  have hsuf2 : (".json").toList <:+ h8 ++ ext.toList :=
    isSuffix_of_append_left hsuf (by simp only [List.length_append, hlen, h5]; omega)
  rcases Nat.lt_or_ge ext.toList.length 5 with hlt | hge
  · obtain ⟨t, ht⟩ := hsuf2
    have hlent : t.length = 3 + ext.toList.length := by
      have := congrArg List.length ht
      simp only [List.length_append, hlen, h5] at this
      omega
    have h8eq : h8 = t ++ (".json").toList.take (8 - t.length) := by
      have htake := congrArg (List.take 8) ht
      have hL : (t ++ (".json").toList).take 8
          = t ++ (".json").toList.take (8 - t.length) := by
        rw [List.take_append_eq_append_take,
          List.take_of_length_le (by omega : t.length ≤ 8)]
      have hR : (h8 ++ ext.toList).take 8 = h8 := by
        rw [List.take_append_eq_append_take,
          List.take_of_length_le (by omega : h8.length ≤ 8),
          show 8 - h8.length = 0 from by omega, List.take_zero, List.append_nil]
      rw [hL, hR] at htake
      exact htake.symm
    have hdotmem : ('.' : Char) ∈ h8 := by
      rw [h8eq]
      apply List.mem_append_right
      have hk : 1 ≤ 8 - t.length := by omega
      rcases Nat.exists_eq_add_of_le hk with ⟨m, hm⟩
      rw [show (".json").toList = '.' :: ['j', 's', 'o', 'n'] from rfl, hm,
        show (1 : Nat) + m = m + 1 from Nat.add_comm 1 m, List.take_succ_cons]
      exact List.mem_cons_self _ _
    exact absurd (hhex '.' hdotmem) (by decide)
  · have hsuf3 : (".json").toList <:+ ext.toList :=
      isSuffix_of_append_left hsuf2 (by omega)
    rcases hext with rfl | ⟨s, hsne, hdot, hse⟩
    · have h0 : (("" : String).toList).length = 0 := rfl
      omega
    · rcases Nat.eq_or_lt_of_le hge with heq5 | hgt5
      · have hlisteq : (".json").toList = ext.toList :=
          hsuf3.sublist.eq_of_length (by omega)
        exact hne (string_eq_of_toList hlisteq.symm)
      · rw [hse] at hsuf3
        have hl := congrArg List.length hse
        simp only [List.length_cons] at hl
        have hsuf4 : (".json").toList <:+ s := isSuffix_of_cons hsuf3 (by omega)
        exact hdot '.' (hsuf4.subset (by decide)) rfl

/-! ### Helper lemmas: bucket directories through a store operation. -/

theorem mem_putEntry_self (l : List DirEntry) (e : DirEntry) : e ∈ putEntry l e := by
  unfold putEntry
  split
  case isTrue h =>
    rcases List.any_eq_true.mp h with ⟨f, hf, hfe⟩
    exact List.mem_map.mpr ⟨f, hf, by rw [if_pos (of_decide_eq_true hfe)]⟩
  case isFalse h =>
    exact List.mem_append_right _ (List.mem_singleton.mpr rfl)

theorem mem_putEntry (l : List DirEntry) (e f : DirEntry) (h : f ∈ putEntry l e) :
    f ∈ l ∨ f = e := by
  unfold putEntry at h
  split at h
  · rcases List.mem_map.mp h with ⟨a, ha, hae⟩
    by_cases hn : a.name = e.name
    · rw [if_pos hn] at hae
      exact Or.inr hae.symm
    · rw [if_neg hn] at hae
      exact Or.inl (hae ▸ ha)
  · rcases List.mem_append.mp h with h | h
    · exact Or.inl h
    · exact Or.inr (List.mem_singleton.mp h)

theorem mem_putEntry_of_ne (l : List DirEntry) (e f : DirEntry)
    (hf : f ∈ l) (hne : f.name ≠ e.name) : f ∈ putEntry l e := by
  unfold putEntry
  split
  · exact List.mem_map.mpr ⟨f, hf, by rw [if_neg hne]⟩
  · exact List.mem_append_left _ hf

theorem mem_bucketFiles_putBucket_self (st : StorageState) (t : String) (e : DirEntry) :
    e ∈ bucketFiles (putBucket st t e) t := by
  by_cases h : t = "sql" <;> simp [bucketFiles, putBucket, h, mem_putEntry_self]

theorem mem_bucketFiles_putBucket (st : StorageState) (t0 t : String) (e f : DirEntry)
    (h : f ∈ bucketFiles (putBucket st t0 e) t) : f ∈ bucketFiles st t ∨ f = e := by
  by_cases h0 : t0 = "sql" <;> by_cases h1 : t = "sql" <;>
    simp only [bucketFiles, putBucket, h0, h1, if_true, if_false] at h ⊢ <;>
    first
      | exact mem_putEntry _ _ _ h
      | exact Or.inl h

theorem mem_bucketFiles_putBucket_of_ne (st : StorageState) (t0 t : String) (e f : DirEntry)
    (hf : f ∈ bucketFiles st t) (hne : f.name ≠ e.name) :
    f ∈ bucketFiles (putBucket st t0 e) t := by
  by_cases h0 : t0 = "sql" <;> by_cases h1 : t = "sql" <;>
    simp only [bucketFiles, putBucket, h0, h1, if_true, if_false] at hf ⊢ <;>
    first
      | exact mem_putEntry_of_ne _ _ _ hf hne
      | exact hf

theorem bucketFiles_setSchema (st : StorageState) (y : List (String × SchemaSidecar))
    (t : String) : bucketFiles { st with schemaFiles := y } t = bucketFiles st t := by
  by_cases h : t = "sql" <;> simp [bucketFiles, h]

theorem bucketFiles_unlinkTemp (st : StorageState) (p t : String) :
    bucketFiles (unlinkTemp st p) t = bucketFiles st t := by
  by_cases h : t = "sql" <;> simp [bucketFiles, unlinkTemp, h]

theorem bucketFiles_storeInSql (env : Env) (st : StorageState) (data : List Json)
    (n t : String) : bucketFiles (storeInSql env st data n).2 t = bucketFiles st t := by
  unfold storeInSql
  split
  · rfl
  · split
    · rfl
    · by_cases h : t = "sql" <;> simp [bucketFiles, h]

theorem bucketFiles_storeInNosql (env : Env) (st : StorageState) (data : Json)
    (n t : String) : bucketFiles (storeInNosql env st data n).2 t = bucketFiles st t := by
  unfold storeInNosql
  split
  · rfl
  · split <;> first
      | rfl
      | (by_cases h : t = "sql" <;> simp [bucketFiles, h])

theorem bucketFiles_dbStore (env : Env) (st : StorageState) (rec : String) (data : Json)
    (n t : String) : bucketFiles (dbStore env st rec data n).2 t = bucketFiles st t := by
  unfold dbStore
  split
  · split
    · exact bucketFiles_storeInSql _ _ _ _ _
    · exact bucketFiles_storeInSql _ _ _ _ _
    · split
      · exact bucketFiles_storeInSql _ _ _ _ _
      · rfl
    · rfl
  · exact bucketFiles_storeInNosql _ _ _ _ _

theorem mem_bucketFiles_saveMetadata (env : Env) (st : StorageState) (t0 t nfn : String)
    (analysis : AnalysisResult) (origName : String) (size : Nat) (url : Option String)
    (f : DirEntry) (hf : f ∈ bucketFiles st t) (hne : f.name ≠ pathStem nfn ++ ".meta.json") :
    f ∈ bucketFiles (saveMetadata env st t0 nfn analysis origName size url) t := by
  unfold saveMetadata
  rw [bucketFiles_setSchema]
  exact mem_bucketFiles_putBucket_of_ne _ _ _ _ _ hf hne

/-! ### Claim C4: a failing remote upload in remote-only mode is a hard
failure. -/

/-- C4: in `online` storage mode, a Cloudinary failure makes the whole
store operation fail — the caller receives `success = false` with the
upload error, and apart from the temp-file deletion the storage world is
untouched (no silent partial success). -/
theorem remote_only_failure_hard (env : Env) (st : StorageState) (filePath : String)
    (fileBytes : List Nat) (fileParsed : Except String Json) (originalName : String)
    (analysis : AnalysisResult)
    (hmode : env.storageMode = "online") (hcl : env.cloudinaryOk = false)
    (hnodup : checkDuplicate st (getFileHash filePath fileBytes) analysis.recommendation
      = "") :
    (storeJsonFile env st filePath fileBytes fileParsed originalName analysis).1
      = { success := false,
          error := some ("Cloudinary upload failed: " ++ env.cloudinaryErrMsg) }
    ∧ (storeJsonFile env st filePath fileBytes fileParsed originalName analysis).2
      = unlinkTemp st filePath := by
  simp only [storeJsonFile, hmode, hnodup, hcl]
  simp

/-- Witness for C4 at a concrete failing remote-only store. -/
theorem remote_only_failure_hard_witness :
    (storeJsonFile ⟨"online", "ts", "iso", false, "u", "boom", true, true⟩
        StorageState.empty "t" [49] (Except.ok (Json.num 1)) "a.json"
        ⟨"nosql", "r", none, none, none, none⟩).1
      = { success := false, error := some ("Cloudinary upload failed: " ++ "boom") }
    ∧ (storeJsonFile ⟨"online", "ts", "iso", false, "u", "boom", true, true⟩
        StorageState.empty "t" [49] (Except.ok (Json.num 1)) "a.json"
        ⟨"nosql", "r", none, none, none, none⟩).2
      = unlinkTemp StorageState.empty "t" :=
  remote_only_failure_hard _ _ _ _ _ _ _ rfl rfl rfl

/-! ### Claim C5: dual mode with a failing remote leg degrades, not
fails. -/

/-- C5: in `both` storage mode, when only the Cloudinary leg fails, the
store succeeds: the outcome reports `success = true` with a null remote
location (the degraded-mode signal in the result record, alongside the
logged upload error), `duplicate = false`, the local path of the stored
copy, and the data file is present in the recommended bucket. -/
theorem both_mode_remote_failure_degraded (env : Env) (st : StorageState) (filePath : String)
    (fileBytes : List Nat) (v : Json) (originalName : String) (analysis : AnalysisResult)
    (hmode : env.storageMode = "both") (hcl : env.cloudinaryOk = false)
    (hnodup : checkDuplicate st (getFileHash filePath fileBytes) analysis.recommendation
      = "") :
    (storeJsonFile env st filePath fileBytes (Except.ok v) originalName analysis).1.success
      = true
    ∧ (storeJsonFile env st filePath fileBytes (Except.ok v) originalName analysis).1.onlineUrl
      = none
    ∧ (storeJsonFile env st filePath fileBytes (Except.ok v) originalName analysis).1.duplicate
      = some false
    ∧ (storeJsonFile env st filePath fileBytes (Except.ok v) originalName analysis).1.localPath
      = some (bucketDir analysis.recommendation
          ++ (pathStem originalName ++ "_" ++ env.timestamp ++ "_"
              ++ strTake 8 (getFileHash filePath fileBytes) ++ pathSuffix originalName))
    ∧ (⟨pathStem originalName ++ "_" ++ env.timestamp ++ "_"
            ++ strTake 8 (getFileHash filePath fileBytes) ++ pathSuffix originalName,
        DirContent.raw fileBytes⟩ : DirEntry)
        ∈ bucketFiles
            (storeJsonFile env st filePath fileBytes (Except.ok v) originalName analysis).2
            analysis.recommendation := by
  simp only [storeJsonFile, hmode, hcl, hnodup]
  simp
  rw [bucketFiles_unlinkTemp]
  apply mem_bucketFiles_saveMetadata
  · rw [bucketFiles_dbStore]
    exact mem_bucketFiles_putBucket_self _ _ _
  · exact Ne.symm (metaName_ne _)

/-- Witness for C5 at a concrete degraded store. -/
theorem both_mode_remote_failure_degraded_witness :
    (storeJsonFile ⟨"both", "ts", "iso", false, "u", "boom", true, true⟩
        StorageState.empty "t" [49] (Except.ok (Json.num 1)) "a.json"
        ⟨"nosql", "r", none, none, none, none⟩).1.success = true
    ∧ (storeJsonFile ⟨"both", "ts", "iso", false, "u", "boom", true, true⟩
        StorageState.empty "t" [49] (Except.ok (Json.num 1)) "a.json"
        ⟨"nosql", "r", none, none, none, none⟩).1.onlineUrl = none
    ∧ (storeJsonFile ⟨"both", "ts", "iso", false, "u", "boom", true, true⟩
        StorageState.empty "t" [49] (Except.ok (Json.num 1)) "a.json"
        ⟨"nosql", "r", none, none, none, none⟩).1.duplicate = some false
    ∧ (storeJsonFile ⟨"both", "ts", "iso", false, "u", "boom", true, true⟩
        StorageState.empty "t" [49] (Except.ok (Json.num 1)) "a.json"
        ⟨"nosql", "r", none, none, none, none⟩).1.localPath
      = some (bucketDir ("nosql")
          ++ (pathStem "a.json" ++ "_" ++ "ts" ++ "_"
              ++ strTake 8 (getFileHash "t" [49]) ++ pathSuffix "a.json"))
    ∧ (⟨pathStem "a.json" ++ "_" ++ "ts" ++ "_"
            ++ strTake 8 (getFileHash "t" [49]) ++ pathSuffix "a.json",
        DirContent.raw [49]⟩ : DirEntry)
        ∈ bucketFiles
            (storeJsonFile ⟨"both", "ts", "iso", false, "u", "boom", true, true⟩
              StorageState.empty "t" [49] (Except.ok (Json.num 1)) "a.json"
              ⟨"nosql", "r", none, none, none, none⟩).2
            ("nosql") :=
  both_mode_remote_failure_degraded _ _ _ _ _ _ _ rfl rfl rfl

/-! ### Claim C1: deduplication idempotence (code bug). -/

def c1Env1 : Env :=
  ⟨"local", "20250101_120000", "2025-01-01T12:00:00", true, "u", "e", true, true⟩

def c1Env2 : Env :=
  ⟨"local", "20250101_120001", "2025-01-01T12:00:01", true, "u", "e", true, true⟩

/-- The bytes of the flat object upload body used for C1. -/
def c1Bytes : List Nat := [123, 34, 105, 100, 34, 58, 32, 49, 125]

def c1Parsed : Except String Json := Except.ok (Json.obj [("id", Json.num 1)])

/-- First upload of the flat object into an empty store, `local` mode. -/
def c1First : StoreResult × StorageState :=
  uploadPipeline c1Env1 StorageState.empty "app/storage/temp/temp_data.json" c1Bytes
    c1Parsed "data.json"

/-- Second upload of the identical bytes, one second later. -/
def c1Second : StoreResult × StorageState :=
  uploadPipeline c1Env2 c1First.2 "app/storage/temp/temp_data.json" c1Bytes
    c1Parsed "data.json"

set_option maxRecDepth 100000 in
/-- C1 fails on the code: `_check_duplicate` searches stored names for the
full 32-character fingerprint, but stored names embed only its first 8
characters, so the check never matches.  Concretely: after storing
`data.json` with body bytes of a flat object, a data file with the
identical bytes sits in the sql bucket, yet the duplicate check returns
`""`, and re-storing the identical bytes yields `duplicate = false`,
growing the bucket from 2 artifacts (data file + sidecar) to 4 instead of
leaving it unchanged. -/
theorem duplicate_check_never_matches :
    c1First.1.duplicate = some false
    ∧ c1First.2.sqlFiles.length = 2
    ∧ (∃ f ∈ c1First.2.sqlFiles, f.content = DirContent.raw c1Bytes)
    ∧ checkDuplicate c1First.2
        (getFileHash "app/storage/temp/temp_data.json" c1Bytes) "sql" = ""
    ∧ c1Second.1.duplicate = some false
    ∧ c1Second.1.success = true
    ∧ c1Second.2.sqlFiles.length = 4 := by
  decide

/-! ### Claim C2: unparseable JSON (fails, but only after the storage
write). -/

set_option maxRecDepth 100000 in
/-- Counterexample to C2 as stated: an unparseable upload in `local` mode
is reported as a failure, but a bucket data file has been written — the
operation does not abort before the storage write. -/
theorem invalid_json_write_counterexample :
    (uploadPipeline ⟨"local", "20250101_120000", "iso", true, "u", "er", true, true⟩
        StorageState.empty "app/storage/temp/temp_bad.json" [123, 110]
        (Except.error "Expecting value: line 1 column 2 (char 1)") "bad.json").1.success
      = false
    ∧ (uploadPipeline ⟨"local", "20250101_120000", "iso", true, "u", "er", true, true⟩
        StorageState.empty "app/storage/temp/temp_bad.json" [123, 110]
        (Except.error "Expecting value: line 1 column 2 (char 1)") "bad.json").2.nosqlFiles
      ≠ [] := by
  decide

/-- C2 as amended: unparseable JSON is classified document-oriented with
an `Invalid JSON` reason instead of being rejected; in `local` mode the
store writes the bucket data file, then fails at the database-insertion
re-parse, returning `success = false` carrying the parse error text; no
schema sidecar is written and the temp file is removed. -/
theorem invalid_json_fails_after_write (env : Env) (st : StorageState) (tempPath : String)
    (fileBytes : List Nat) (e : String) (originalName : String)
    (hmode : env.storageMode = "local")
    (hsize : fileBytes.length ≤ 10 * 1024 * 1024)
    (hnodup : checkDuplicate st (getFileHash tempPath fileBytes) "nosql" = "") :
    (analyzeJsonFile fileBytes.length (Except.error e)).recommendation = "nosql"
    ∧ (analyzeJsonFile fileBytes.length (Except.error e)).reason = "Invalid JSON: " ++ e
    ∧ (uploadPipeline env st tempPath fileBytes (Except.error e) originalName).1
        = { success := false, error := some e }
    ∧ (⟨pathStem originalName ++ "_" ++ env.timestamp ++ "_"
          ++ strTake 8 (getFileHash tempPath fileBytes) ++ pathSuffix originalName,
        DirContent.raw fileBytes⟩ : DirEntry)
        ∈ bucketFiles
            (uploadPipeline env st tempPath fileBytes (Except.error e) originalName).2
            "nosql"
    ∧ (uploadPipeline env st tempPath fileBytes (Except.error e) originalName).2.schemaFiles
        = st.schemaFiles
    ∧ ((uploadPipeline env st tempPath fileBytes
          (Except.error e) originalName).2.tempFiles.contains tempPath) = false := by
  have han : analyzeJsonFile fileBytes.length (Except.error e)
      = { recommendation := "nosql", reason := "Invalid JSON: " ++ e } := by
    simp [analyzeJsonFile, Nat.not_lt.mpr hsize]
  refine ⟨by rw [han], by rw [han], ?_, ?_, ?_, ?_⟩ <;>
    simp only [uploadPipeline, han, storeJsonFile, hmode, hnodup] <;>
    simp
  · rw [bucketFiles_unlinkTemp]
    exact mem_bucketFiles_putBucket_self _ _ _
  · rw [unlinkTemp]
    by_cases h : "nosql" = "sql" <;> simp [putBucket, h]
  · exact not_mem_unlinkTemp _ _

set_option maxRecDepth 100000 in
/-- Witness for C2 (amended) at a concrete invalid upload. -/
theorem invalid_json_fails_after_write_witness :
    (uploadPipeline ⟨"local", "ts", "iso", true, "u", "er", true, true⟩
        StorageState.empty "t" [123, 110] (Except.error "Expecting value") "bad.json").1
      = { success := false, error := some "Expecting value" }
    ∧ ((uploadPipeline ⟨"local", "ts", "iso", true, "u", "er", true, true⟩
        StorageState.empty "t" [123, 110]
        (Except.error "Expecting value") "bad.json").2.tempFiles.contains "t") = false :=
  ⟨(invalid_json_fails_after_write ⟨"local", "ts", "iso", true, "u", "er", true, true⟩
      StorageState.empty "t" [123, 110] "Expecting value" "bad.json"
      rfl (by decide) rfl).2.2.1,
   (invalid_json_fails_after_write ⟨"local", "ts", "iso", true, "u", "er", true, true⟩
      StorageState.empty "t" [123, 110] "Expecting value" "bad.json"
      rfl (by decide) rfl).2.2.2.2.2⟩

/-! ### Claim C10: the duplicate filter and non-`.json` extensions. -/

theorem bucketFiles_empty (t : String) : bucketFiles StorageState.empty t = [] := by
  by_cases h : t = "sql" <;> simp [bucketFiles, StorageState.empty, h]

theorem bucketFiles_setRemote (X : StorageState) (y : List (String × String × List Nat))
    (t : String) : bucketFiles { X with remoteFiles := y } t = bucketFiles X t := by
  by_cases h : t = "sql" <;> simp [bucketFiles, h]

theorem bucketFiles_iteRemote (c : Prop) [Decidable c] (X : StorageState)
    (y : List (String × String × List Nat)) (t : String) :
    bucketFiles (if c then { X with remoteFiles := y } else X) t = bucketFiles X t := by
  split
  · exact bucketFiles_setRemote X y t
  · rfl

theorem mem_bucketFiles_iteLocal (c : Prop) [Decidable c] (st : StorageState) (t0 t : String)
    (e f : DirEntry) (hf : f ∈ bucketFiles (if c then putBucket st t0 e else st) t) :
    f ∈ bucketFiles st t ∨ f = e := by
  split at hf
  · exact mem_bucketFiles_putBucket _ _ _ _ _ hf
  · exact Or.inl hf

theorem mem_bucketFiles_saveMetadata_inv (env : Env) (st : StorageState) (t0 t nfn : String)
    (analysis : AnalysisResult) (origName : String) (size : Nat) (url : Option String)
    (f : DirEntry)
    (hf : f ∈ bucketFiles (saveMetadata env st t0 nfn analysis origName size url) t) :
    f ∈ bucketFiles st t ∨ f.name = pathStem nfn ++ ".meta.json" := by
  unfold saveMetadata at hf
  rw [bucketFiles_setSchema] at hf
  rcases mem_bucketFiles_putBucket _ _ _ _ _ hf with h | h
  · exact Or.inl h
  · exact Or.inr (congrArg DirEntry.name h)

/-- Every file in a bucket after a store operation was either already
there, or is the freshly stored data file, or its `.meta.json` sidecar. -/
theorem mem_bucketFiles_store (env : Env) (st : StorageState) (filePath : String)
    (fileBytes : List Nat) (fileParsed : Except String Json) (originalName : String)
    (analysis : AnalysisResult) (t : String) (f : DirEntry)
    (hf : f ∈ bucketFiles (storeJsonFile env st filePath fileBytes fileParsed
        originalName analysis).2 t) :
    f ∈ bucketFiles st t
    ∨ f.name = pathStem originalName ++ "_" ++ env.timestamp ++ "_"
        ++ strTake 8 (getFileHash filePath fileBytes) ++ pathSuffix originalName
    ∨ f.name = pathStem (pathStem originalName ++ "_" ++ env.timestamp ++ "_"
        ++ strTake 8 (getFileHash filePath fileBytes) ++ pathSuffix originalName)
        ++ ".meta.json" := by
  simp only [storeJsonFile] at hf
  split at hf
  · rw [bucketFiles_unlinkTemp] at hf
    exact Or.inl hf
  · split at hf
    · rw [bucketFiles_unlinkTemp] at hf
      rcases mem_bucketFiles_iteLocal _ _ _ _ _ _ hf with h | h
      · exact Or.inl h
      · exact Or.inr (Or.inl (congrArg DirEntry.name h))
    · split at hf
      · rw [bucketFiles_unlinkTemp, bucketFiles_iteRemote] at hf
        rcases mem_bucketFiles_iteLocal _ _ _ _ _ _ hf with h | h
        · exact Or.inl h
        · exact Or.inr (Or.inl (congrArg DirEntry.name h))
      · rw [bucketFiles_unlinkTemp] at hf
        split at hf
        · rcases mem_bucketFiles_saveMetadata_inv _ _ _ _ _ _ _ _ _ _ hf with hf | hmeta
          · rw [bucketFiles_dbStore] at hf
            rw [bucketFiles_iteRemote] at hf
            rcases mem_bucketFiles_putBucket _ _ _ _ _ hf with h | h
            · exact Or.inl h
            · exact Or.inr (Or.inl (congrArg DirEntry.name h))
          · exact Or.inr (Or.inr hmeta)
        · rw [bucketFiles_dbStore] at hf
          rw [bucketFiles_iteRemote] at hf
          exact Or.inl hf

/-- C10: the duplicate filter only ever matches stored names ending in
`.json` (and never the `.meta.json` / `.schema.json` sidecars); stored
names keep the original upload extension, so when that extension is not
exactly `.json`, re-storing identical bytes after a store into an empty
world is never reported as a duplicate. -/
theorem non_json_extension_never_duplicate (env : Env) (filePath : String)
    (fileBytes : List Nat) (fileParsed : Except String Json) (originalName : String)
    (analysis : AnalysisResult)
    (hext : pathSuffix originalName ≠ ".json") :
    (∀ (fileHash : String) (e : DirEntry), dupMatches fileHash e = true →
        strEndsWith e.name ".json" = true ∧ strEndsWith e.name ".meta.json" = false
        ∧ strEndsWith e.name ".schema.json" = false)
    ∧ (∀ (env2 : Env) (path2 name2 : String) (parsed2 : Except String Json)
        (analysis2 : AnalysisResult),
        (storeJsonFile env2
            (storeJsonFile env StorageState.empty filePath fileBytes fileParsed
              originalName analysis).2
            path2 fileBytes parsed2 name2 analysis2).1.duplicate ≠ some true) := by
  have hpart1 : ∀ (fileHash : String) (e : DirEntry), dupMatches fileHash e = true →
      strEndsWith e.name ".json" = true ∧ strEndsWith e.name ".meta.json" = false
      ∧ strEndsWith e.name ".schema.json" = false := by
    intro h e hm
    unfold dupMatches at hm
    simp only [Bool.and_eq_true] at hm
    obtain ⟨⟨⟨h1, h2⟩, h3⟩, h4⟩ := hm
    refine ⟨h1, ?_, ?_⟩
    · simpa using h2
    · simpa using h3
  refine ⟨hpart1, ?_⟩
  intro env2 path2 name2 parsed2 analysis2
  have hdata_not_json : strEndsWith (pathStem originalName ++ "_" ++ env.timestamp ++ "_"
      ++ strTake 8 (getFileHash filePath fileBytes) ++ pathSuffix originalName) ".json"
      = false := by
    unfold strEndsWith
    apply decide_eq_false
    have htl : (pathStem originalName ++ "_" ++ env.timestamp ++ "_"
        ++ strTake 8 (getFileHash filePath fileBytes) ++ pathSuffix originalName).toList
        = ((pathStem originalName ++ "_" ++ env.timestamp ++ "_").toList
          ++ ((getFileHash filePath fileBytes).toList.take 8
            ++ (pathSuffix originalName).toList)) := by
      simp only [toList_append, strTake, toList_mk, List.append_assoc]
    rw [htl]
    apply json_suffix_impossible
    · rw [getFileHash_eq_md5Hex, List.length_take, md5Hex_toList_length]
      decide
    · intro c hc
      rw [getFileHash_eq_md5Hex] at hc
      exact mem_md5Hex_hex _ c (List.mem_of_mem_take hc)
    · rcases splitExt_cases (pathName originalName) with h | ⟨s, hne, hdot, h2, -⟩
      · left
        unfold pathSuffix
        rw [h]
      · exact Or.inr ⟨s, hne, hdot, h2⟩
    · exact hext
  have hmeta_is_meta : ∀ nm : String,
      strEndsWith (nm ++ ".meta.json") ".meta.json" = true := by
    intro nm
    unfold strEndsWith
    apply decide_eq_true
    rw [toList_append]
    exact List.suffix_append _ _
  set st1 := (storeJsonFile env StorageState.empty filePath fileBytes fileParsed
    originalName analysis).2 with hst1
  have hnodup2 : ∀ (hsh t : String), checkDuplicate st1 hsh t = "" := by
    intro hsh t
    unfold checkDuplicate
    have hnone : (bucketFiles st1 t).find? (dupMatches hsh) = none := by
      rw [List.find?_eq_none]
      intro x hx
      rw [hst1] at hx
      rcases mem_bucketFiles_store _ _ _ _ _ _ _ _ _ hx with h | hname | hname
      · rw [bucketFiles_empty] at h
        cases h
      · intro habs
        rcases hpart1 hsh x habs with ⟨hj, -, -⟩
        rw [hname, hdata_not_json] at hj
        cases hj
      · intro habs
        unfold dupMatches at habs
        simp only [Bool.and_eq_true] at habs
        have hbad := habs.1.1.2
        rw [hname, hmeta_is_meta] at hbad
        simpa using hbad
    rw [hnone]
  simp only [storeJsonFile, hnodup2]
  simp only [bne_self_eq_false, Bool.false_eq_true, if_false]
  split
  · simp
  · split <;> simp

/-- Witness for C10 at a `.txt` upload. -/
theorem non_json_extension_never_duplicate_witness :
    (∀ (fileHash : String) (e : DirEntry), dupMatches fileHash e = true →
        strEndsWith e.name ".json" = true ∧ strEndsWith e.name ".meta.json" = false
        ∧ strEndsWith e.name ".schema.json" = false)
    ∧ (∀ (env2 : Env) (path2 name2 : String) (parsed2 : Except String Json)
        (analysis2 : AnalysisResult),
        (storeJsonFile env2
            (storeJsonFile ⟨"local", "ts", "iso", true, "u", "e", true, true⟩
              StorageState.empty "t" [49] (Except.ok (Json.num 1)) "data.txt"
              ⟨"nosql", "r", none, none, none, none⟩).2
            path2 [49] parsed2 name2 analysis2).1.duplicate ≠ some true) :=
  non_json_extension_never_duplicate ⟨"local", "ts", "iso", true, "u", "e", true, true⟩
    "t" [49] (Except.ok (Json.num 1)) "data.txt" ⟨"nosql", "r", none, none, none, none⟩
    (by decide)
